import Mathlib

/-!
Shallow embedding of the Andes Controller sequencer assembler
(`AndesControllerLib/bkp/5/sequencer.py`) and of the USB bytecode packer
(`AndesControllerLib/binary.py`).

Python `int` values are modelled as `Nat` (or `Int` where the source can
receive negative inputs), dictionaries as insertion-ordered association
lists, and functions that `raise` as `Except`-valued functions.
-/

namespace Seq

/-! ## Python truthiness

`sequencer.py` relies on Python truthiness in several places
(`if(parent_mode_name)`, `if(not nested_loops)`, `if(self.next_mode_name)`,
`int(bool(bit))`).  We model the sets of values the call sites can receive. -/

/-- A Python value as it can appear in a `data_bits` entry of
`State.from_bits` (the callers pass ints, strings or bools). -/
inductive PyVal where
  | int (n : Int)
  | str (s : String)
  | bool (b : Bool)
deriving DecidableEq

/-- Python truthiness (`bool(x)`): an int is truthy iff nonzero, a string
iff nonempty, a bool is itself. -/
def PyVal.truthy : PyVal → Bool
  | .int n => n != 0
  | .str s => s != ""
  | .bool b => b

/-- Truthiness of an optional string argument (`None` and `''` are falsy). -/
def pyTruthyOptStr : Option String → Bool
  | none => false
  | some s => s != ""

/-- Truthiness of an optional int argument (`None` and `0` are falsy). -/
def pyTruthyOptInt : Option Int → Bool
  | none => false
  | some n => n != 0

/-! ## State (`sequencer.py`, class `State`) -/

/-- `State._max_hold_time = 2**24 - 1`. -/
def maxHoldTime : Nat := 2 ^ 24 - 1

/-- `State._max_states_length = 64`. -/
def maxStatesLength : Nat := 64

/-- A sequencer state: pin output values and hold time
(`State.__init__` stores `data` unchecked and `hold_time` range-checked). -/
structure State where
  data : Nat
  hold_time : Nat
deriving DecidableEq

/-- `State.__init__`: raises `ValueError` when `hold_time` is out of
`[0 ... 2^24-1]`.  (The Python lower-bound arm `hold_time < 0` is
unrepresentable for a `Nat` input and no claim concerns it.) -/
def State.init (data : Nat) (hold_time : Nat) : Except String State :=
  if hold_time > maxHoldTime then
    .error "hold_time is out of range [0...16777215]."
  else
    .ok ⟨data, hold_time⟩

/-- `State.get_value_of_address`: `(self.data >> address) & 0x01`. -/
def State.get_value_of_address (s : State) (address : Nat) : Nat :=
  (s.data >>> address) &&& 0x01

/-- `State.get_code`: `(self.data << 24) | self.hold_time`. -/
def State.get_code (s : State) : Nat :=
  (s.data <<< 24) ||| s.hold_time

/-- The pin-vector extraction performed by `State.format_code`:
`data = (code & 0x7FFFFFFF80000000) >> 31`. -/
def State.format_code_data (code : Nat) : Nat :=
  (code &&& 0x7FFFFFFF80000000) >>> 31

/-- The hold-time extraction performed by `State.format_code`:
`time = code & 0xFFFFFF`. -/
def State.format_code_time (code : Nat) : Nat :=
  code &&& 0xFFFFFF

/-- The bit list built by `State.from_bits`:
`bits = [int(bool(bit)) for bit in data_bits]`. -/
def pyBits (data_bits : List PyVal) : List Nat :=
  data_bits.map (fun b => if b.truthy then 1 else 0)

/-- The word-assembly loop of `State.from_bits`:
`data = 0; for ii in range(len(bits)): data = data | (bits[ii] << ii)`.
`start` is the index of the first element of `bs` in the word. -/
def orShift : List Nat → Nat → Nat
  | [], _ => 0
  | b :: rest, start => (b <<< start) ||| orShift rest (start + 1)

/-- `State.from_bits`: coerces each entry by truthiness, rejects more than
64 bits (fewer only produces a log warning), assembles the word and calls
`State.__init__`. -/
def State.from_bits (data_bits : List PyVal) (hold_time : Nat) :
    Except String State :=
  if (pyBits data_bits).length > maxStatesLength then
    .error "Too many bits for a sequencer state (max is 64)."
  else
    State.init (orShift (pyBits data_bits) 0) hold_time

/-! ## Mode (`sequencer.py`, class `Mode`) -/

/-- `Mode._invalid_mode = 2**10 - 1` (the reserved sentinel address). -/
def invalidMode : Nat := 2 ^ 10 - 1

/-- `Mode._max_n_loops = 2**16 - 1`. -/
def maxNLoops : Int := 2 ^ 16 - 1

/-- `Mode._max_n_loops_nested = 2**16 - 1`. -/
def maxNLoopsNested : Int := 2 ^ 16 - 1

/-- `Mode._max_n_states = 2**10 - 1`. -/
def maxNStates : Nat := 2 ^ 10 - 1

/-- A sequencer mode.  `parent_mode_name` is `some _` exactly when the
Python object has the `parent_mode_name` attribute (set only when the
constructor argument was truthy); `nested_loops` is meaningful only then.
`n_loops` is kept as `Int` because `Mode.__init__` accepts negative
values (see the C8 analysis). -/
structure Mode where
  name : String
  n_loops : Int
  next_mode_name : Option String
  parent_mode_name : Option String
  nested_loops : Int
  states : List State
deriving DecidableEq

/-- `Mode.is_nested`: `hasattr(self, 'parent_mode_name')`. -/
def Mode.is_nested (m : Mode) : Bool :=
  m.parent_mode_name.isSome

/-- `Mode.__init__`: checks `n_loops > _max_n_loops` (note: no lower-bound
check), then, when `parent_mode_name` is truthy, requires a truthy
`nested_loops` and checks its upper bound.  The states list starts empty. -/
def Mode.init (name : String) (n_loops : Int) (next_mode_name : Option String)
    (parent_mode_name : Option String) (nested_loops : Option Int) :
    Except String Mode :=
  if n_loops > maxNLoops then
    .error "n_loops is out of range [0...65535]."
  else if pyTruthyOptStr parent_mode_name then
    if !pyTruthyOptInt nested_loops then
      .error "Must give a value to nested_loops if parent_mode_name is specified."
    else if nested_loops.getD 0 > maxNLoopsNested then
      .error "nested_loops is out of range [0...65535]."
    else
      .ok ⟨name, n_loops, next_mode_name, parent_mode_name, nested_loops.getD 0, []⟩
  else
    .ok ⟨name, n_loops, next_mode_name, none, 0, []⟩

/-- `address_cache[name]` (a Python `dict` lookup; in `build` the keys are
the registered mode names, unique because `add_mode` rejects duplicates,
so first-match association-list lookup agrees with the dict). -/
def lookupAddr (cache : List (String × Nat)) (name : String) : Nat :=
  ((cache.find? (fun p => p.1 == name)).map Prod.snd).getD 0

/-- `Mode.get_code`: packs
`| 0x80 | len(states) | n_loops | nested_loops | is_nested | next_address | parent_address |`
into bits `95..88 | 87..72 | 71..56 | 55..40 | 39..32 | 31..16 | 15..0`.
A falsy `next_mode_name` and a missing parent both encode the sentinel
`_invalid_mode = 0x3FF`.  `n_loops`/`nested_loops` are converted with
`Int.toNat`; this matches the Python `|`-packing for the non-negative
values every range-checked mode carries. -/
def Mode.get_code (m : Mode) (address_cache : List (String × Nat)) : Nat :=
  let is_nested : Nat := if m.is_nested then 1 else 0
  let nested_loops : Nat := if m.is_nested then m.nested_loops.toNat else 0
  let next_address : Nat :=
    if pyTruthyOptStr m.next_mode_name then
      lookupAddr address_cache (m.next_mode_name.getD "")
    else invalidMode
  let parent_address : Nat :=
    if m.is_nested then lookupAddr address_cache (m.parent_mode_name.getD "")
    else invalidMode
  ((((((parent_address ||| (next_address <<< 16)) ||| (is_nested <<< 32)) |||
    (nested_loops <<< 40)) ||| (m.n_loops.toNat <<< 56)) |||
    (m.states.length <<< 72)) ||| (0x80 <<< 88))

/-! ## Program and ProgramBuilder (`sequencer.py`) -/

/-- `ProgramBuilder._max_n_lines = 2**10 - 1`. -/
def maxNLines : Nat := 2 ^ 10 - 1

/-- A compiled program (class `Program`). -/
structure Program where
  codes : List Nat
  address_map : List (String × Nat)
  modes : List Mode
deriving DecidableEq

/-- `Program.get_address`: `self.address_map[mode]`. -/
def Program.get_address (p : Program) (mode : String) : Option Nat :=
  p.address_map.lookup mode

/-- The branch condition of `Program.as_str`: a word `c` is rendered as a
Mode header iff `(c >> 63) == 1` (line 60), otherwise as a State word. -/
def as_str_is_mode_header (c : Nat) : Bool :=
  (c >>> 63) == 1

/-- The tag byte of a 96-bit word, bits `95..88`. -/
def tagByte (c : Nat) : Nat :=
  (c >>> 88) &&& 0xFF

/-- One consistency issue logged by `ProgramBuilder.build` via
`self.log.error(...)`. -/
inductive Issue where
  | unknownNext (next_mode : Option String) (mode : String)
  | doubleNested (mode parent : String) (grandparent : Option String)
  | unknownParent (parent_mode : Option String) (mode : String)
deriving DecidableEq

/-- The error raised by `ProgramBuilder.build`: either the single
`ValueError` raised after the consistency loop (carrying the issues the
loop logged), or the memory-limit `ValueError` (carrying the actual and
maximum line counts printed in its message). -/
inductive BuildError where
  | consistency (issues : List Issue)
  | memoryOverflow (actual limit : Nat)
deriving DecidableEq

/-- `ProgramBuilder.get_mode` as a partial lookup: the Python method
raises when no mode matches; a `None` name never matches a mode (mode
names are strings). -/
def get_mode? (modes : List Mode) (name : Option String) : Option Mode :=
  match name with
  | some n => modes.find? (fun m => m.name == n)
  | none => none

/-- The issues the consistency loop of `build` logs for one mode, in
logging order: the `next_mode` existence check (unconditional in the
source — see C1), then, for nested modes, the parent existence and
double-nesting checks. -/
def modeIssues (modes : List Mode) (m : Mode) : List Issue :=
  (match get_mode? modes m.next_mode_name with
    | some _ => []
    | none => [.unknownNext m.next_mode_name m.name]) ++
  (if m.is_nested then
    match get_mode? modes m.parent_mode_name with
    | some parent =>
        if parent.is_nested then
          [.doubleNested m.name parent.name parent.parent_mode_name]
        else []
    | none => [.unknownParent m.parent_mode_name m.name]
  else [])

/-- All issues logged by the consistency loop of `build`, over the modes
in registration order. -/
def collectIssues (modes : List Mode) : List Issue :=
  modes.flatMap (modeIssues modes)

/-- The address-assignment pass of `build` (lines 281-285): starting from
`current_address`, each mode is assigned the running address, which then
advances by `len(mode.states) + 1`. -/
def addressCacheAux : List Mode → Nat → List (String × Nat)
  | [], _ => []
  | m :: rest, addr => (m.name, addr) :: addressCacheAux rest (addr + m.states.length + 1)

/-- The complete address cache built by `build` (running offset starts
at 0). -/
def build_address_cache (modes : List Mode) : List (String × Nat) :=
  addressCacheAux modes 0

/-- The encoding loop of `build`: for each mode, its header word followed
by one word per state. -/
def encodeCodes (modes : List Mode) (cache : List (String × Nat)) : List Nat :=
  modes.flatMap (fun m => m.get_code cache :: m.states.map State.get_code)

/-- The closed form of the running offset of the address-assignment pass:
the address assigned to the `i`-th registered mode (each earlier mode
advances the offset by `1 + len(states)`). -/
def addrOf : List Mode → Nat → Nat
  | _, 0 => 0
  | [], _ + 1 => 0
  | m :: rest, i + 1 => m.states.length + 1 + addrOf rest i

/-- `ProgramBuilder.build`: address assignment, consistency checks
(raising one error after logging every issue), encoding, then the memory
capacity check `len(codes) > _max_n_lines`. -/
def build (modes : List Mode) : Except BuildError Program :=
  if collectIssues modes = [] then
    if (encodeCodes modes (build_address_cache modes)).length > maxNLines then
      .error (.memoryOverflow (encodeCodes modes (build_address_cache modes)).length maxNLines)
    else
      .ok ⟨encodeCodes modes (build_address_cache modes), build_address_cache modes, modes⟩
  else
    .error (.consistency (collectIssues modes))

/-! ## Labels (`sequencer.py`, class `Labels`) -/

/-- The collision scan of `Labels.__init__`: walks the mapping, keeping
the addresses seen so far; a key whose address was already seen is added
to `repeated_keys` (and the address is not re-added to `seen`). -/
def labelsRepeated : List (String × Nat) → List Nat → List String
  | [], _ => []
  | (k, v) :: rest, seen =>
    if v ∈ seen then k :: labelsRepeated rest seen
    else labelsRepeated rest (seen ++ [v])

/-- `Labels.__init__`: raises one `ValueError` naming every key collected
in `repeated_keys` when that list is nonempty; otherwise stores the
mapping. -/
def Labels.init (labels : List (String × Nat)) :
    Except (List String) (List (String × Nat)) :=
  if (labelsRepeated labels []).length > 0 then .error (labelsRepeated labels [])
  else .ok labels

end Seq

namespace Bin

/-! ## ByteCode (`binary.py`) -/

/-- The byte-order configuration of `ByteCode` (`struct` format character
`<` or `>`). -/
inductive Endianness where
  | little
  | big
deriving DecidableEq

/-- `struct.pack(endianess + 'I', n)` for `0 ≤ n < 2^32`: the four bytes
of `n`, least-significant first for `<`, most-significant first for `>`. -/
def pack4 (e : Endianness) (n : Nat) : List Nat :=
  match e with
  | .little => [n &&& 0xFF, (n >>> 8) &&& 0xFF, (n >>> 16) &&& 0xFF, (n >>> 24) &&& 0xFF]
  | .big => [(n >>> 24) &&& 0xFF, (n >>> 16) &&& 0xFF, (n >>> 8) &&& 0xFF, n &&& 0xFF]

/-- `ByteCode.int_to_byte_list` with `signed=False` (the signed variant
differs only in the `struct` format character and is not under test):
4 bytes pack the value directly (`struct` raises on overflow); 8 bytes
split the value into high and low 32-bit halves, pack each half
independently per the configured byte order, and concatenate high half
first; any other width raises. -/
def int_to_byte_list (e : Endianness) (number : Nat) (n_bytes : Nat) :
    Except String (List Nat) :=
  if n_bytes = 4 then
    if number < 2 ^ 32 then .ok (pack4 e number)
    else .error "struct.error: argument out of range"
  else if n_bytes = 8 then
    let number_h := (number &&& 0xFFFFFFFF00000000) >>> 32
    let number_l := number &&& 0x00000000FFFFFFFF
    .ok (pack4 e number_h ++ pack4 e number_l)
  else
    .error "Only 4 and 8 n_bytes supported"

/-- Modelled from the spec: the (hypothetical) little-endian encoding of
the full 8-byte integer, which the spec contrasts with `pack_wide` — the
repository has no such function; this definition exists only to state
that `int_to_byte_list` with 8 bytes differs from it. -/
def le8_full (n : Nat) : List Nat :=
  [n &&& 0xFF, (n >>> 8) &&& 0xFF, (n >>> 16) &&& 0xFF, (n >>> 24) &&& 0xFF,
   (n >>> 32) &&& 0xFF, (n >>> 40) &&& 0xFF, (n >>> 48) &&& 0xFF, (n >>> 56) &&& 0xFF]

end Bin

/-! ## Theorems -/

instance exceptDecEq {ε α : Type} [DecidableEq ε] [DecidableEq α] :
    DecidableEq (Except ε α)
  | .ok a, .ok b =>
    if h : a = b then isTrue (by rw [h])
    else isFalse (fun hh => h (Except.ok.inj hh))
  | .ok _, .error _ => isFalse (fun hh => Except.noConfusion hh)
  | .error _, .ok _ => isFalse (fun hh => Except.noConfusion hh)
  | .error e, .error f =>
    if h : e = f then isTrue (by rw [h])
    else isFalse (fun hh => h (Except.error.inj hh))

namespace Seq

/-- Helper: bit extraction through a shifted mask. -/
theorem and_shiftLeft_shiftRight (v m k : Nat) :
    (v &&& (m <<< k)) >>> k = (v >>> k) &&& m := by
  apply Nat.eq_of_testBit_eq
  intro i
  simp [Nat.testBit_and, Nat.testBit_shiftRight, Nat.testBit_shiftLeft,
    Nat.add_sub_cancel_left, Nat.le_add_right]

/-- C1: `build` rejects a program whose only mode omits `next_mode`
(`get_mode(None)` raises, logged as an unknown-next-mode issue), even
though `Mode.get_code` encodes the sentinel `0x3FF` in bits 31-16 for a
missing `next_mode` — the validation contradicts the encoder's own
support for omitted successors. -/
theorem C1_missing_next_mode_rejected :
    build [⟨"A", 0, none, none, 0, []⟩] =
      .error (.consistency [.unknownNext none "A"]) ∧
    ((Mode.get_code ⟨"A", 0, none, none, 0, []⟩ []) >>> 16) &&& 0xFFFF = invalidMode := by
  exact ⟨rfl, rfl⟩

/-- C2: the pin-vector extraction of `State.format_code` (stale mask
`0x7FFFFFFF80000000 >> 31`, bits 62-31) does not invert `State.get_code`
(data at bits 87-24): the state with pin 0 set and hold_time 0 decodes to
pin vector 0, while the hold-time extraction is correct. -/
theorem C2_state_decode_drops_pins :
    State.format_code_data (State.get_code ⟨1, 0⟩) ≠ (State.mk 1 0).data ∧
    State.format_code_time (State.get_code ⟨1, 0⟩) = (State.mk 1 0).hold_time := by
  exact ⟨by decide, by decide⟩

/-- C3: `Program.as_str` classifies words with `(c >> 63) == 1`, not with
the tag byte: the header word of a compiled one-mode program has tag byte
`0x80` yet is not rendered as a Mode header, and the state word with only
pin 39 set has tag byte `0x00` yet is rendered as a Mode header. -/
theorem C3_as_str_misclassifies :
    build [⟨"A", 0, some "A", none, 0, []⟩] =
      .ok ⟨[Mode.get_code ⟨"A", 0, some "A", none, 0, []⟩ [("A", 0)]], [("A", 0)],
        [⟨"A", 0, some "A", none, 0, []⟩]⟩ ∧
    tagByte (Mode.get_code ⟨"A", 0, some "A", none, 0, []⟩ [("A", 0)]) = 0x80 ∧
    as_str_is_mode_header (Mode.get_code ⟨"A", 0, some "A", none, 0, []⟩ [("A", 0)]) = false ∧
    tagByte (State.get_code ⟨2 ^ 39, 0⟩) = 0x00 ∧
    as_str_is_mode_header (State.get_code ⟨2 ^ 39, 0⟩) = true := by
  exact ⟨rfl, by decide, by decide, by decide, by decide⟩

/-- C8: `Mode.__init__` never checks the lower bound of `n_loops`:
`Mode('X', -1)` succeeds and stores `-1`, while construction fails exactly
when `n_loops > 65535` — out-of-range negative values are accepted
silently, contradicting the constructor's own error message
`out of range [0...65535]`. -/
theorem C8_negative_loop_count_accepted :
    Mode.init "X" (-1) none none none = .ok ⟨"X", -1, none, none, 0, []⟩ ∧
    ∀ L : Int, (Mode.init "X" L none none none).isOk = true ↔ L ≤ maxNLoops := by
  constructor
  · rfl
  · intro L
    rcases le_or_lt L maxNLoops with h | h
    · have hinit : Mode.init "X" L none none none = .ok ⟨"X", L, none, none, 0, []⟩ := by
        unfold Mode.init
        rw [if_neg (not_lt.mpr h)]
        rfl
      rw [hinit]
      simp only [Except.isOk, Except.toBool, eq_self_iff_true, true_iff]
      exact h
    · have hinit : Mode.init "X" L none none none =
          .error "n_loops is out of range [0...65535]." := by
        unfold Mode.init
        rw [if_pos h]
      rw [hinit]
      simp only [Except.isOk, Except.toBool, Bool.false_eq_true, false_iff, not_le]
      exact h

/-- C9 counterexample: for the mapping `{a: 0, b: 0}` the error of
`Labels.__init__` collects only `"b"` — the first name that used the
shared address, `"a"`, is not collected, refuting the claim that every
name involved in a collision is reported. -/
theorem C9_first_name_not_collected :
    Labels.init [("a", 0), ("b", 0)] = .error ["b"] ∧
    "a" ∉ (["b"] : List String) := by
  exact ⟨rfl, by decide⟩

end Seq

namespace Bin

/-- C4: the 8-byte path of `int_to_byte_list` packs the high 32-bit half
then the low 32-bit half, each independently byte-ordered; under
little-endian configuration `0x1122334455667788` yields the little-endian
bytes of `0x11223344` followed by those of `0x55667788`, which differs
from the little-endian encoding of the full 8-byte integer. -/
theorem C4_pack_wide (e : Endianness) (v : Nat) (hv : v < 2 ^ 64) :
    int_to_byte_list e v 8 =
      .ok (pack4 e (v / 2 ^ 32) ++ pack4 e (v % 2 ^ 32)) ∧
    int_to_byte_list .little 0x1122334455667788 8 =
      .ok (pack4 .little 0x11223344 ++ pack4 .little 0x55667788) ∧
    int_to_byte_list .little 0x1122334455667788 8 ≠
      .ok (le8_full 0x1122334455667788) := by
  refine ⟨?_, by decide, by decide⟩
  have hmask : (0xFFFFFFFF00000000 : Nat) = 0xFFFFFFFF <<< 32 := by decide
  have h1 : (v &&& 0xFFFFFFFF00000000) >>> 32 = v / 2 ^ 32 := by
    rw [hmask, Seq.and_shiftLeft_shiftRight]
    have h32 : (0xFFFFFFFF : Nat) = 2 ^ 32 - 1 := by norm_num
    rw [h32, Nat.and_pow_two_sub_one_eq_mod, Nat.shiftRight_eq_div_pow]
    exact Nat.mod_eq_of_lt (Nat.div_lt_of_lt_mul (by norm_num at hv ⊢; omega))
  have h2 : v &&& 0x00000000FFFFFFFF = v % 2 ^ 32 := by
    have h32 : (0x00000000FFFFFFFF : Nat) = 2 ^ 32 - 1 := by norm_num
    rw [h32, Nat.and_pow_two_sub_one_eq_mod]
  simp only [int_to_byte_list, h1, h2]
  norm_num

/-- Witness for C4 at big-endian configuration and the spec's example
value. -/
theorem C4_pack_wide_witness :
    (0x1122334455667788 : Nat) < 2 ^ 64 ∧
    int_to_byte_list Endianness.big 0x1122334455667788 8 =
      .ok (pack4 .big (0x1122334455667788 / 2 ^ 32) ++
        pack4 .big (0x1122334455667788 % 2 ^ 32)) :=
  ⟨by decide, (C4_pack_wide .big 0x1122334455667788 (by decide)).1⟩

end Bin

namespace Seq

/-- Helper: the address cache has one entry per registered mode. -/
theorem addressCacheAux_length (ms : List Mode) (a : Nat) :
    (addressCacheAux ms a).length = ms.length := by
  induction ms generalizing a with
  | nil => rfl
  | cons m rest ih => simp [addressCacheAux, ih]

/-- Helper: the address cache has one entry per registered mode. -/
theorem build_address_cache_length (ms : List Mode) :
    (build_address_cache ms).length = ms.length :=
  addressCacheAux_length ms 0

/-- Helper: the i-th cache entry pairs the i-th mode's name with the
running offset. -/
theorem addressCacheAux_get (ms : List Mode) (a : Nat) (i : Nat) (h : i < ms.length) :
    (addressCacheAux ms a).get ⟨i, (addressCacheAux_length ms a).symm ▸ h⟩ =
      ((ms.get ⟨i, h⟩).name, a + addrOf ms i) := by
  induction ms generalizing a i with
  | nil => exact absurd h (by simp)
  | cons m rest ih =>
    cases i with
    | zero => simp [addressCacheAux, addrOf]
    | succ i =>
      have h2 : i < rest.length := Nat.lt_of_succ_lt_succ h
      have := ih (a + m.states.length + 1) i h2
      simp only [addressCacheAux, List.get, addrOf, this]
      simp only [Prod.mk.injEq]
      exact ⟨trivial, by omega⟩

/-- Helper: the running offset advances by `1 + len(states)` per mode. -/
theorem addrOf_succ (ms : List Mode) (i : Nat) (h : i < ms.length) :
    addrOf ms (i + 1) = addrOf ms i + 1 + (ms.get ⟨i, h⟩).states.length := by
  induction ms generalizing i with
  | nil => exact absurd h (by simp)
  | cons m rest ih =>
    cases i with
    | zero =>
      cases rest with
      | nil => simp [addrOf]; omega
      | cons m2 rest2 => simp [addrOf]; omega
    | succ i =>
      have h2 : i < rest.length := Nat.lt_of_succ_lt_succ h
      have := ih i h2
      simp only [addrOf, List.get, this]
      omega

/-- C5: addresses are assigned in one pass in registration order: the
`i`-th cache entry carries address `addrOf modes i` with `addrOf modes 0
= 0`, consecutive entries satisfy `addr(i+1) = addr(i) + 1 +
len(states_i)`, hence addresses strictly increase; concretely, for `M1`
with two states followed by `M2`, `address_of("M1") = 0` and
`address_of("M2") = 3` in the compiled program. -/
theorem C5_address_assignment (modes : List Mode) (i : Nat) (h : i + 1 < modes.length) :
    addrOf modes 0 = 0 ∧
    (build_address_cache modes).get
        ⟨i, (build_address_cache_length modes).symm ▸ Nat.lt_of_succ_lt h⟩ =
      ((modes.get ⟨i, Nat.lt_of_succ_lt h⟩).name, addrOf modes i) ∧
    (build_address_cache modes).get ⟨i + 1, (build_address_cache_length modes).symm ▸ h⟩ =
      ((modes.get ⟨i + 1, h⟩).name,
        addrOf modes i + 1 + (modes.get ⟨i, Nat.lt_of_succ_lt h⟩).states.length) ∧
    addrOf modes i < addrOf modes (i + 1) ∧
    (build [⟨"M1", 3, some "M2", none, 0, [⟨0, 1⟩, ⟨0, 1⟩]⟩,
        ⟨"M2", 0, some "M1", none, 0, [⟨0, 1⟩]⟩]).toOption.map
      (fun p => (p.get_address "M1", p.get_address "M2")) = some (some 0, some 3) := by
  have hrec := addrOf_succ modes i (Nat.lt_of_succ_lt h)
  refine ⟨?_, ?_, ?_, ?_, ?_⟩
  · cases modes <;> rfl
  · have := addressCacheAux_get modes 0 i (Nat.lt_of_succ_lt h)
    simpa [build_address_cache, Nat.zero_add] using this
  · have := addressCacheAux_get modes 0 (i + 1) h
    rw [← hrec]
    simpa [build_address_cache, Nat.zero_add] using this
  · omega
  · decide

/-- Witness for C5 at the two-mode example program with index 0. -/
theorem C5_address_assignment_witness :
    (0 : Nat) + 1 < ([⟨"M1", 3, some "M2", none, 0, [⟨0, 1⟩, ⟨0, 1⟩]⟩,
        ⟨"M2", 0, some "M1", none, 0, [⟨0, 1⟩]⟩] : List Mode).length ∧
    addrOf [⟨"M1", 3, some "M2", none, 0, [⟨0, 1⟩, ⟨0, 1⟩]⟩,
        (⟨"M2", 0, some "M1", none, 0, [⟨0, 1⟩]⟩ : Mode)] 0 <
      addrOf [⟨"M1", 3, some "M2", none, 0, [⟨0, 1⟩, ⟨0, 1⟩]⟩,
        (⟨"M2", 0, some "M1", none, 0, [⟨0, 1⟩]⟩ : Mode)] 1 :=
  ⟨by decide,
    (C5_address_assignment [⟨"M1", 3, some "M2", none, 0, [⟨0, 1⟩, ⟨0, 1⟩]⟩,
      ⟨"M2", 0, some "M1", none, 0, [⟨0, 1⟩]⟩] 0 (by decide)).2.2.2.1⟩

/-- Helper: the encoded word count is one header per mode plus one word
per state. -/
theorem encodeCodes_length (ms : List Mode) (cache : List (String × Nat)) :
    (encodeCodes ms cache).length =
      ms.length + (ms.map (fun m => m.states.length)).sum := by
  induction ms with
  | nil => rfl
  | cons m rest ih =>
    simp only [encodeCodes, List.flatMap_cons, List.length_append, List.length_cons,
      List.length_map, List.map_cons, List.sum_cons]
    rw [show (rest.flatMap fun m => m.get_code cache :: List.map State.get_code m.states) =
      encodeCodes rest cache from rfl, ih]
    omega

/-- C6: for a program that passes the consistency checks, `build`
succeeds exactly when the encoded word count (one header per mode plus
one word per state) is at most 1023, and otherwise fails carrying the
exact word count against the 1023 limit, the count being measured on the
fully encoded word list. -/
theorem C6_capacity (modes : List Mode) (hvalid : collectIssues modes = []) :
    (modes.length + (modes.map (fun m => m.states.length)).sum ≤ 1023 →
      build modes = .ok ⟨encodeCodes modes (build_address_cache modes),
        build_address_cache modes, modes⟩) ∧
    (1024 ≤ modes.length + (modes.map (fun m => m.states.length)).sum →
      build modes = .error (.memoryOverflow
        (modes.length + (modes.map (fun m => m.states.length)).sum) 1023)) := by
  have hn := encodeCodes_length modes (build_address_cache modes)
  have hml : maxNLines = 1023 := by norm_num [maxNLines]
  constructor
  · intro hle
    unfold build
    rw [if_pos hvalid, if_neg (by omega)]
  · intro hge
    unfold build
    rw [if_pos hvalid, if_pos (by omega), hn, hml]

/-- Witness for C6 at a one-mode self-looping program. -/
theorem C6_capacity_witness :
    collectIssues [⟨"A", 0, some "A", none, 0, []⟩] = [] ∧
    build [⟨"A", 0, some "A", none, 0, []⟩] =
      .ok ⟨encodeCodes [⟨"A", 0, some "A", none, 0, []⟩]
          (build_address_cache [⟨"A", 0, some "A", none, 0, []⟩]),
        build_address_cache [⟨"A", 0, some "A", none, 0, []⟩],
        [⟨"A", 0, some "A", none, 0, []⟩]⟩ :=
  ⟨rfl, (C6_capacity [⟨"A", 0, some "A", none, 0, []⟩] rfl).1 (by decide)⟩

end Seq

namespace Seq

/-- C7: whenever the registered mode set contains a mode with an
unresolved `next_mode` and a nested mode whose declared parent is itself
nested, `build` runs its consistency loop over every mode and raises one
error carrying the whole issue list, which contains both issues. -/
theorem C7_batch_validation (modes : List Mode) (m1 m2 p : Mode)
    (hm1 : m1 ∈ modes) (hm2 : m2 ∈ modes)
    (hnext : get_mode? modes m1.next_mode_name = none)
    (hnested : m2.is_nested = true)
    (hparent : get_mode? modes m2.parent_mode_name = some p)
    (hp : p.is_nested = true) :
    build modes = .error (.consistency (collectIssues modes)) ∧
    Issue.unknownNext m1.next_mode_name m1.name ∈ collectIssues modes ∧
    Issue.doubleNested m2.name p.name p.parent_mode_name ∈ collectIssues modes := by
  have h1 : Issue.unknownNext m1.next_mode_name m1.name ∈ modeIssues modes m1 := by
    simp only [modeIssues, hnext, List.mem_append]
    exact Or.inl (by simp)
  have h2 : Issue.doubleNested m2.name p.name p.parent_mode_name ∈ modeIssues modes m2 := by
    simp only [modeIssues, hparent, hnested, hp, if_true, List.mem_append]
    exact Or.inr (by simp)
  have hm1i : Issue.unknownNext m1.next_mode_name m1.name ∈ collectIssues modes :=
    List.mem_flatMap.mpr ⟨m1, hm1, h1⟩
  have hm2i : Issue.doubleNested m2.name p.name p.parent_mode_name ∈ collectIssues modes :=
    List.mem_flatMap.mpr ⟨m2, hm2, h2⟩
  refine ⟨?_, hm1i, hm2i⟩
  unfold build
  rw [if_neg (List.ne_nil_of_mem hm1i)]

/-- Witness for C7: mode "A" has unresolved next mode "ZZZ", mode "B" is
nested in "C" which is itself nested in "A". -/
theorem C7_batch_validation_witness :
    build [⟨"A", 0, some "ZZZ", none, 0, []⟩, ⟨"B", 1, some "A", some "C", 1, []⟩,
        ⟨"C", 1, some "A", some "A", 1, []⟩] =
      .error (.consistency (collectIssues [⟨"A", 0, some "ZZZ", none, 0, []⟩,
        ⟨"B", 1, some "A", some "C", 1, []⟩, ⟨"C", 1, some "A", some "A", 1, []⟩])) ∧
    Issue.unknownNext (some "ZZZ") "A" ∈ collectIssues [⟨"A", 0, some "ZZZ", none, 0, []⟩,
      ⟨"B", 1, some "A", some "C", 1, []⟩, ⟨"C", 1, some "A", some "A", 1, []⟩] ∧
    Issue.doubleNested "B" "C" (some "A") ∈ collectIssues [⟨"A", 0, some "ZZZ", none, 0, []⟩,
      ⟨"B", 1, some "A", some "C", 1, []⟩, ⟨"C", 1, some "A", some "A", 1, []⟩] :=
  C7_batch_validation
    [⟨"A", 0, some "ZZZ", none, 0, []⟩, ⟨"B", 1, some "A", some "C", 1, []⟩,
      ⟨"C", 1, some "A", some "A", 1, []⟩]
    ⟨"A", 0, some "ZZZ", none, 0, []⟩ ⟨"B", 1, some "A", some "C", 1, []⟩
    ⟨"C", 1, some "A", some "A", 1, []⟩
    (by decide) (by decide) rfl rfl rfl rfl

/-- Helper: the repeated-keys scan of `Labels.__init__` returns an empty
list iff the addresses are pairwise distinct and avoid the already-seen
set. -/
theorem labelsRepeated_eq_nil_iff (xs : List (String × Nat)) (seen : List Nat) :
    labelsRepeated xs seen = [] ↔
      (xs.map Prod.snd).Nodup ∧ ∀ v ∈ xs.map Prod.snd, v ∉ seen := by
  induction xs generalizing seen with
  | nil => simp [labelsRepeated]
  | cons kv rest ih =>
    obtain ⟨k, v⟩ := kv
    by_cases hv : v ∈ seen
    · simp only [labelsRepeated, if_pos hv]
      constructor
      · intro h
        exact absurd h (List.cons_ne_nil _ _)
      · rintro ⟨-, hall⟩
        exact absurd hv (hall v (by simp))
    · simp only [labelsRepeated, if_neg hv, ih, List.map_cons, List.nodup_cons,
        List.mem_cons, List.mem_append, List.mem_singleton, not_or]
      constructor
      · rintro ⟨hnd, hall⟩
        refine ⟨⟨fun hvm => (hall v hvm).2.1 rfl, hnd⟩, ?_⟩
        rintro v1 (rfl | h1)
        · exact hv
        · exact (hall v1 h1).1
      · rintro ⟨⟨hvr, hnd⟩, hall⟩
        exact ⟨hnd, fun v1 h1 =>
          ⟨hall v1 (Or.inr h1), fun he => hvr (he ▸ h1), by simp⟩⟩

/-- C9 amended: `Labels.__init__` fails with one error exactly when some
address is repeated; the error collects the names of the entries whose
address was already used by an earlier entry — the first name to use each
shared address is not collected (see the counterexample theorem). -/
theorem C9_labels_amended (labels : List (String × Nat)) :
    ((Labels.init labels).isOk = true ↔ (labels.map Prod.snd).Nodup) ∧
    (¬ (labels.map Prod.snd).Nodup →
      Labels.init labels = .error (labelsRepeated labels [])) := by
  have h := labelsRepeated_eq_nil_iff labels []
  simp only [List.not_mem_nil, not_false_iff, implies_true, and_true] at h
  constructor
  · by_cases hr : labelsRepeated labels [] = []
    · have hok : Labels.init labels = .ok labels := by
        unfold Labels.init
        rw [if_neg (by rw [hr]; simp)]
      rw [hok]
      exact iff_of_true rfl (h.mp hr)
    · have herr : Labels.init labels = .error (labelsRepeated labels []) := by
        unfold Labels.init
        rw [if_pos (List.length_pos.mpr hr)]
      rw [herr]
      exact iff_of_false (by simp [Except.isOk, Except.toBool]) (fun hnd => hr (h.mpr hnd))
  · intro hnd
    have hr : labelsRepeated labels [] ≠ [] := fun he => hnd (h.mp he)
    unfold Labels.init
    rw [if_pos (List.length_pos.mpr hr)]

/-- Witness for C9 (amended) at the colliding mapping `{a: 0, b: 0}`. -/
theorem C9_labels_amended_witness :
    ¬ (([("a", 0), ("b", 0)] : List (String × Nat)).map Prod.snd).Nodup ∧
    Labels.init [("a", 0), ("b", 0)] = .error (labelsRepeated [("a", 0), ("b", 0)] []) :=
  ⟨by decide, (C9_labels_amended [("a", 0), ("b", 0)]).2 (by decide)⟩

end Seq

namespace Seq

/-- Helper: `(x >> i) & 1` as a test of bit `i` of `x`. -/
theorem shiftRight_and_one (x i : Nat) :
    (x >>> i) &&& 1 = if x.testBit i then 1 else 0 := by
  rw [Nat.and_one_is_mod, Nat.shiftRight_eq_div_pow, Nat.testBit_to_div_mod]
  rcases Nat.mod_two_eq_zero_or_one (x / 2 ^ i) with h | h <;> simp [h]

/-- Helper: bit `k` of the word assembled by the `from_bits` loop, when
every entry of the bit list is 0 or 1. -/
theorem orShift_testBit (bs : List Nat) (hb : ∀ b ∈ bs, b ≤ 1) (start k : Nat) :
    Nat.testBit (orShift bs start) k =
      (decide (start ≤ k) && (bs.getD (k - start) 0 == 1)) := by
  induction bs generalizing start with
  | nil => simp [orShift]
  | cons b rest ih =>
    have hb0 : b ≤ 1 := hb b (by simp)
    have hbr : ∀ x ∈ rest, x ≤ 1 := fun x hx => hb x (by simp [hx])
    rw [orShift, Nat.testBit_or, Nat.testBit_shiftLeft, ih hbr]
    rcases Nat.lt_or_ge k start with hk | hk
    · have d1 : decide (k ≥ start) = false := by simp; omega
      have d3 : decide (start + 1 ≤ k) = false := by simp; omega
      rw [d1, d3]
      simp
    · rcases Nat.eq_or_lt_of_le hk with he | hlt
      · subst he
        have d1 : decide (start ≥ start) = true := by simp
        have d3 : decide (start + 1 ≤ start) = false := by simp
        rw [d1, d3, Nat.sub_self]
        rcases Nat.le_one_iff_eq_zero_or_eq_one.mp hb0 with rfl | rfl <;> simp
      · have d1 : decide (k ≥ start) = true := by simp; omega
        have d3 : decide (start + 1 ≤ k) = true := by simp; omega
        have hbt : b.testBit (k - start) = false := by
          rcases Nat.le_one_iff_eq_zero_or_eq_one.mp hb0 with rfl | rfl
          · exact Nat.zero_testBit _
          · exact Nat.testBit_lt_two_pow (Nat.one_lt_two_pow (by omega))
        have hks : k - start = (k - (start + 1)) + 1 := by omega
        rw [d1, d3, hbt, hks, List.getD_cons_succ]
        simp only [Bool.true_and, Bool.false_or]

/-- C10: `State.from_bits` accepts any list of at most 64 entries and
coerces each entry by Python truthiness: pin `i` of the resulting state
is 1 iff entry `i` is truthy — non-canonical values are accepted without
error (in particular the nonempty string "0" is truthy, see the
witness). -/
theorem C10_truthiness_coercion (data_bits : List PyVal) (hold_time : Nat)
    (hlen : data_bits.length ≤ 64) (hhold : hold_time ≤ maxHoldTime) :
    State.from_bits data_bits hold_time =
      .ok ⟨orShift (pyBits data_bits) 0, hold_time⟩ ∧
    ∀ i (hi : i < data_bits.length),
      (State.mk (orShift (pyBits data_bits) 0) hold_time).get_value_of_address i =
        if (data_bits.get ⟨i, hi⟩).truthy then 1 else 0 := by
  have hb : ∀ b ∈ pyBits data_bits, b ≤ 1 := by
    intro b hbm
    rcases List.mem_map.mp hbm with ⟨a, -, rfl⟩
    split <;> omega
  constructor
  · unfold State.from_bits State.init
    rw [if_neg (by rw [pyBits, List.length_map]; simp [maxStatesLength]; omega),
      if_neg (by omega)]
  · intro i hi
    have hi2 : i < (pyBits data_bits).length := by
      rw [pyBits, List.length_map]; exact hi
    unfold State.get_value_of_address
    rw [shiftRight_and_one, orShift_testBit (pyBits data_bits) hb 0 i]
    have hgd : (pyBits data_bits).getD (i - 0) 0 =
        if (data_bits.get ⟨i, hi⟩).truthy then 1 else 0 := by
      simp only [Nat.sub_zero, pyBits, List.getD_eq_getElem?_getD, List.getElem?_map,
        List.getElem?_eq_getElem hi, Option.map_some', Option.getD_some,
        List.get_eq_getElem]
    rw [hgd]
    by_cases ht : (data_bits.get ⟨i, hi⟩).truthy = true <;> simp [ht]

/-- Witness for C10 at the single-entry list `['0']`: the string "0" is
truthy, so pin 0 of the resulting state is 1. -/
theorem C10_truthiness_coercion_witness :
    State.from_bits [PyVal.str "0"] 10 =
      .ok ⟨orShift (pyBits [PyVal.str "0"]) 0, 10⟩ ∧
    (State.mk (orShift (pyBits [PyVal.str "0"]) 0) 10).get_value_of_address 0 =
      if (([PyVal.str "0"] : List PyVal).get ⟨0, by decide⟩).truthy then 1 else 0 :=
  ⟨(C10_truthiness_coercion [PyVal.str "0"] 10 (by decide) (by decide)).1,
    (C10_truthiness_coercion [PyVal.str "0"] 10 (by decide) (by decide)).2 0 (by decide)⟩

end Seq
